import Mathlib

set_option maxRecDepth 200000

/-!
Verification of the external-process execution and result protocol.

The repository under verification ships a Go implementation of the Dagster
Pipes protocol together with Python example glue (`assets.py`,
`definitions.py`, `test_dagster_pipes.py`).  The protocol engine itself
(Context Encoder, Message Stream Reader, Message Reducer, Process Runner,
Result Builder) is described by the specification; this development gives a
shallow embedding of that engine and of the example scenarios, and proves the
specification's claims about it.
-/

namespace Pipes

/-- Modelled from the spec: JSON values, the payload format of
protocol-framed message lines and of the encoded execution context
("protocol-framed JSON objects with at least a `kind` field").  Numbers are
restricted to integers, which covers every value the protocol exchanges. -/
inductive Json where
  | null : Json
  | bool (b : Bool) : Json
  | num (n : Int) : Json
  | str (s : String) : Json
  | arr (elems : List Json) : Json
  | obj (fields : List (String × Json)) : Json

/-- Strip a leading character sequence: `some` with the remainder when the
first argument is an initial segment of the second, `none` otherwise. -/
def stripLeading : List Char → List Char → Option (List Char)
  | [], cs => some cs
  | _ :: _, [] => none
  | m :: ms, c :: cs => if c = m then stripLeading ms cs else none

/-- Discard leading blanks, tabs, newlines and carriage returns. -/
def eatWs : List Char → List Char
  | [] => []
  | c :: cs => if c = ' ' ∨ c = '\t' ∨ c = '\n' ∨ c = '\r' then eatWs cs else c :: cs

/-- Translation of a JSON string escape character. -/
def escChar (c : Char) : Option Char :=
  if c = '"' ∨ c = '\\' ∨ c = '/' then some c
  else if c = 'n' then some '\n'
  else if c = 't' then some '\t'
  else if c = 'r' then some '\r'
  else none

/-- Read the body of a JSON string after the opening quote, returning the
decoded characters and the input after the closing quote. -/
def scanStr : List Char → Option (List Char × List Char)
  | [] => none
  | '\\' :: tl =>
    match tl with
    | [] => none
    | e :: tl' =>
      match escChar e with
      | some c => (scanStr tl').map (fun p => (c :: p.1, p.2))
      | none => none
  | '"' :: tl => some ([], tl)
  | c :: tl => (scanStr tl).map (fun p => (c :: p.1, p.2))

/-- Split a leading run of decimal digits off the input. -/
def digitSpan : List Char → List Char × List Char
  | [] => ([], [])
  | c :: cs =>
    if c.isDigit then
      match digitSpan cs with
      | (ds, tl) => (c :: ds, tl)
    else ([], c :: cs)

/-- Numeric value of a digit run. -/
def digitsVal (ds : List Char) : Nat :=
  ds.foldl (fun a c => a * 10 + (c.toNat - 48)) 0

mutual

/-- Modelled from the spec: recursive-descent JSON value parser (the Message
Stream Reader decodes marker-framed lines as JSON).  `fuel` bounds nesting
depth. -/
def parseValue : Nat → List Char → Option (Json × List Char)
  | 0, _ => none
  | fuel + 1, cs =>
    let s := eatWs cs
    match stripLeading ['n', 'u', 'l', 'l'] s with
    | some tl => some (.null, tl)
    | none =>
      match stripLeading ['t', 'r', 'u', 'e'] s with
      | some tl => some (.bool true, tl)
      | none =>
        match stripLeading ['f', 'a', 'l', 's', 'e'] s with
        | some tl => some (.bool false, tl)
        | none =>
          match s with
          | '"' :: tl => (scanStr tl).map (fun p => (.str ⟨p.1⟩, p.2))
          | '[' :: tl =>
            match eatWs tl with
            | ']' :: tl' => some (.arr [], tl')
            | tl' => (parseListTail fuel tl').map (fun p => (.arr p.1, p.2))
          | '\x7b' :: tl =>
            match eatWs tl with
            | '\x7d' :: tl' => some (.obj [], tl')
            | tl' => (parseFieldTail fuel tl').map (fun p => (.obj p.1, p.2))
          | '-' :: tl =>
            match digitSpan tl with
            | ([], _) => none
            | (ds, tl') => some (.num (-(digitsVal ds : Int)), tl')
          | c :: tl =>
            if c.isDigit then
              match digitSpan (c :: tl) with
              | (ds, tl') => some (.num (digitsVal ds : Int), tl')
            else none
          | [] => none

/-- Comma-separated JSON values up to the closing bracket. -/
def parseListTail : Nat → List Char → Option (List Json × List Char)
  | 0, _ => none
  | fuel + 1, cs =>
    match parseValue fuel cs with
    | none => none
    | some (v, tl) =>
      match eatWs tl with
      | ',' :: tl' =>
        (parseListTail fuel tl').map (fun p => (v :: p.1, p.2))
      | ']' :: tl' => some ([v], tl')
      | _ => none

/-- Comma-separated `"key": value` fields up to the closing brace. -/
def parseFieldTail : Nat → List Char → Option (List (String × Json) × List Char)
  | 0, _ => none
  | fuel + 1, cs =>
    match eatWs cs with
    | '"' :: tl =>
      match scanStr tl with
      | none => none
      | some (key, tl1) =>
        match eatWs tl1 with
        | ':' :: tl2 =>
          match parseValue fuel tl2 with
          | none => none
          | some (v, tl3) =>
            match eatWs tl3 with
            | ',' :: tl4 =>
              (parseFieldTail fuel tl4).map
                (fun p => ((⟨key⟩, v) :: p.1, p.2))
            | '\x7d' :: tl4 => some ([(⟨key⟩, v)], tl4)
            | _ => none
        | _ => none
    | _ => none

end

/-- Modelled from the spec: parse a complete JSON document; fails when the
payload is not valid JSON. -/
def parseJson (s : String) : Option Json :=
  match parseValue (s.length + 1) s.data with
  | some (v, tl) => if eatWs tl = [] then some v else none
  | none => none

/-- Severity of an asset check, `WARN` or `ERROR` (spec §3, CheckReport). -/
inductive AssetCheckSeverity where
  | WARN : AssetCheckSeverity
  | ERROR : AssetCheckSeverity
deriving Repr, DecidableEq

/-- Modelled from the spec: MetadataValue, "a tagged union over
\x7btext, numeric, boolean, path, structured/JSON, url\x7d; carries both a raw
value and a label for the tag" (spec §3). -/
inductive MetadataValue where
  | text (s : String) : MetadataValue
  | numeric (n : Int) : MetadataValue
  | boolean (b : Bool) : MetadataValue
  | path (s : String) : MetadataValue
  | structured (j : Json) : MetadataValue
  | url (s : String) : MetadataValue

/-- Modelled from the spec: ProtocolMessage, "a discriminated record with a
`kind` (one of: `log`, `report-asset-materialization`, `report-asset-check`,
`report-custom-message`, `closed`) and a kind-specific payload" (spec §3). -/
inductive ProtocolMessage where
  | log (message : String) : ProtocolMessage
  | reportAssetMaterialization (assetKey : List String)
      (dataVersion : Option String)
      (metadata : List (String × MetadataValue)) : ProtocolMessage
  | reportAssetCheck (checkName : String) (assetKey : List String)
      (passed : Bool) (severity : AssetCheckSeverity)
      (metadata : List (String × MetadataValue)) : ProtocolMessage
  | reportCustomMessage (payload : Json) : ProtocolMessage
  | closed : ProtocolMessage

/-- Target identity: an asset key or a check name with its owning asset key,
"each an ordered sequence of path segments" (spec §3). -/
inductive TargetId where
  | asset (key : List String) : TargetId
  | check (name : String) (asset : List String) : TargetId
deriving Repr, DecidableEq

/-- Modelled from the spec: MaterializationReport — "target identity,
optional DataVersion, mapping of metadata key → MetadataValue" (spec §3).
DataVersion is an opaque string token. -/
structure MaterializationReport where
  assetKey : List String
  dataVersion : Option String
  metadata : List (String × MetadataValue)

/-- Modelled from the spec: CheckReport — "check name, owning asset identity,
boolean `passed`, severity (`WARN` or `ERROR`), metadata mapping" (spec §3). -/
structure CheckReport where
  checkName : String
  assetKey : List String
  passed : Bool
  severity : AssetCheckSeverity
  metadata : List (String × MetadataValue)

/-- Protocol violations (spec §7): the stream is non-conformant.
`UndeclaredTarget` is the violation raised when a report references a target
that was not declared to the Runner (spec §3 invariant). -/
inductive ProtocolViolation where
  | MalformedMessage : ProtocolViolation
  | DuplicateReport : ProtocolViolation
  | MessageAfterClose : ProtocolViolation
  | UndeclaredTarget : ProtocolViolation
deriving Repr, DecidableEq

/-- Process-level failures (spec §7 ExecutionError subkinds).  `nonZeroExit`
carries the exit code and the captured stderr text. -/
inductive ExecutionFailure where
  | nonZeroExit (code : Nat) (stderr : String) : ExecutionFailure
  | timedOut : ExecutionFailure
  | spawnFailed : ExecutionFailure

/-- How the child process terminated, as observed by the Runner. -/
inductive ProcessExit where
  | exited (code : Nat) : ProcessExit
  | timedOut : ProcessExit
  | spawnFailed : ProcessExit
deriving Repr, DecidableEq

/-- Field lookup in a JSON object. -/
def getField (j : Json) (name : String) : Option Json :=
  match j with
  | .obj fields => fields.lookup name
  | _ => none

/-- Expect a JSON string. -/
def asStr : Json → Option String
  | .str s => some s
  | _ => none

/-- Expect a JSON boolean. -/
def asBool : Json → Option Bool
  | .bool b => some b
  | _ => none

/-- Expect a JSON integer. -/
def asInt : Json → Option Int
  | .num n => some n
  | _ => none

/-- Apply a fallible decoder to every element, failing when any element
fails. -/
def mapOption (f : α → Option β) : List α → Option (List β)
  | [] => some []
  | x :: xs =>
    match f x with
    | none => none
    | some y => (mapOption f xs).map (fun ys => y :: ys)

/-- Expect a JSON array of strings (an asset key path). -/
def asStrList : Json → Option (List String)
  | .arr xs => mapOption asStr xs
  | _ => none

/-- Modelled from the spec: decode one MetadataValue from its JSON form,
an object carrying the explicit type tag and the raw value (spec §3, §9
"every value carries an explicit type tag at construction"). -/
def jsonToMetadataValue (j : Json) : Option MetadataValue := do
  let tag ← getField j "type" >>= asStr
  let raw ← getField j "raw_value"
  match tag with
  | "text" => (asStr raw).map .text
  | "int" => (asInt raw).map .numeric
  | "bool" => (asBool raw).map .boolean
  | "path" => (asStr raw).map .path
  | "json" => some (.structured raw)
  | "url" => (asStr raw).map .url
  | _ => none

/-- Decode a metadata mapping: a JSON object whose values are tagged
MetadataValues. -/
def jsonToMetadata : Json → Option (List (String × MetadataValue))
  | .obj fields =>
    mapOption (fun p => (jsonToMetadataValue p.2).map (fun v => (p.1, v)))
      fields
  | _ => none

/-- Decode the optional DataVersion field: absent or null means none. -/
def jsonToDataVersion (j : Json) (field : String) : Option (Option String) :=
  match getField j field with
  | none => some none
  | some .null => some none
  | some (.str s) => some (some s)
  | some _ => none

/-- Decode the optional metadata field: absent means an empty mapping. -/
def jsonToOptMetadata (j : Json) (field : String) :
    Option (List (String × MetadataValue)) :=
  match getField j field with
  | none => some []
  | some m => jsonToMetadata m

/-- Decode a check severity label. -/
def jsonToSeverity (j : Json) : Option AssetCheckSeverity :=
  match j with
  | .str "WARN" => some .WARN
  | .str "ERROR" => some .ERROR
  | _ => none

/-- Modelled from the spec: decode a protocol-framed JSON object into a typed
ProtocolMessage, dispatching on the `kind` field (spec §3, §6). -/
def jsonToMessage (j : Json) : Option ProtocolMessage := do
  let kind ← getField j "kind" >>= asStr
  match kind with
  | "log" => (getField j "message" >>= asStr).map .log
  | "report-asset-materialization" => do
    let key ← getField j "asset_key" >>= asStrList
    let dv ← jsonToDataVersion j "data_version"
    let md ← jsonToOptMetadata j "metadata"
    pure (.reportAssetMaterialization key dv md)
  | "report-asset-check" => do
    let name ← getField j "check_name" >>= asStr
    let key ← getField j "asset_key" >>= asStrList
    let passed ← getField j "passed" >>= asBool
    let sev ← getField j "severity" >>= jsonToSeverity
    let md ← jsonToOptMetadata j "metadata"
    pure (.reportAssetCheck name key passed sev md)
  | "report-custom-message" => (getField j "payload").map .reportCustomMessage
  | "closed" => pure .closed
  | _ => none

/-- The fixed, unambiguous marker distinguishing protocol-framed lines from
ordinary log output (spec §4.3, §6). -/
def messageMarker : String := "__dagster_pipes__"

/-- The payload of a line that begins with the protocol marker, or `none`
for an ordinary log line. -/
def stripMarker (line : String) : Option String :=
  (stripLeading messageMarker.data line.data).map (fun cs => ⟨cs⟩)

/-- Modelled from the spec: the Message Stream Reader's per-line step —
classify one stdout line as plain log text or a protocol-framed message and
decode the latter; a marker-carrying line whose payload fails to decode is a
hard protocol violation, never downgraded to a log line (spec §4.3). -/
def readLine (line : String) : Except ProtocolViolation ProtocolMessage :=
  match stripMarker line with
  | some payload =>
    match parseJson payload with
    | some j =>
      match jsonToMessage j with
      | some m => .ok m
      | none => .error .MalformedMessage
    | none => .error .MalformedMessage
  | none => .ok (.log line)

/-- Modelled from the spec: the Message Reducer's accumulated state —
"emitted materializations, check evaluations, metadata key/value pairs, log
records, and a final status" (spec §2). -/
structure ReducerState where
  materializations : List MaterializationReport
  checks : List CheckReport
  customMessages : List Json
  logs : List String
  closed : Bool

/-- The freshly constructed state at the start of an invocation. -/
def ReducerState.init : ReducerState :=
  { materializations := [], checks := [], customMessages := [], logs := [],
    closed := false }

/-- Does the state already hold a materialization report for this key? -/
def hasMaterialization (st : ReducerState) (key : List String) : Bool :=
  st.materializations.any (fun r => decide (r.assetKey = key))

/-- Does the state already hold a check report for this (name, asset) pair? -/
def hasCheck (st : ReducerState) (name : String) (key : List String) : Bool :=
  st.checks.any (fun c => decide (c.checkName = name ∧ c.assetKey = key))

/-- Modelled from the spec: the Message Reducer's single step (spec §4.4):
log lines are appended to the diagnostic log; the first report per target is
recorded and a second raises `DuplicateReport`; reports for undeclared
targets are rejected (spec §3 invariant); custom messages go to a
side-channel list; `closed` marks clean termination and any message after it
is a `MessageAfterClose` violation. -/
def reduceMsg (declared : List TargetId) (st : ReducerState)
    (m : ProtocolMessage) : Except ProtocolViolation ReducerState :=
  if st.closed then .error .MessageAfterClose
  else
    match m with
    | .log s => .ok { st with logs := st.logs ++ [s] }
    | .reportAssetMaterialization key dv md =>
      if TargetId.asset key ∈ declared then
        if hasMaterialization st key then .error .DuplicateReport
        else .ok { st with
          materializations := st.materializations ++ [⟨key, dv, md⟩] }
      else .error .UndeclaredTarget
    | .reportAssetCheck name key passed sev md =>
      if TargetId.check name key ∈ declared then
        if hasCheck st name key then .error .DuplicateReport
        else .ok { st with checks := st.checks ++ [⟨name, key, passed, sev, md⟩] }
      else .error .UndeclaredTarget
    | .reportCustomMessage p =>
      .ok { st with customMessages := st.customMessages ++ [p] }
    | .closed => .ok { st with closed := true }

/-- Fold the Reducer over an ordered message sequence, the first violation
being fatal for the stream ("no message may be reordered or merged",
spec §3). -/
def reduceMsgs (declared : List TargetId) (st : ReducerState)
    (msgs : List ProtocolMessage) : Except ProtocolViolation ReducerState :=
  msgs.foldl (fun acc m => acc.bind (fun s => reduceMsg declared s m)) (.ok st)

/-- Read and reduce one stdout line: the Reader decodes it and the Reducer
consumes the decoded message. -/
def ingestStep (declared : List TargetId) (st : ReducerState) (l : String) :
    Except ProtocolViolation ReducerState :=
  match readLine l with
  | .error v => .error v
  | .ok m => reduceMsg declared st m

/-- Read and reduce the child's stdout lines in order: each line is decoded
by the Reader and fed to the Reducer; the first violation (from either) is
fatal for the stream. -/
def ingestLines (declared : List TargetId) (st : ReducerState)
    (lines : List String) : Except ProtocolViolation ReducerState :=
  lines.foldl (fun acc l => acc.bind (fun s => ingestStep declared s l))
    (.ok st)

/-- The per-target piece of a successful Outcome: either the recorded report
or `missing` — "MissingReport(target), a reportable failure distinct from a
crash" (spec §4.5). -/
inductive TargetResult where
  | materialized (r : MaterializationReport) : TargetResult
  | checked (r : CheckReport) : TargetResult
  | missing (t : TargetId) : TargetResult

/-- Modelled from the spec: Outcome, the "terminal result of one invocation —
either a successful MaterializationReport/CheckReport ready for conversion,
or a ProtocolError / ExecutionError" (spec §3); diagnostic logs and stderr
are attached (spec §7). -/
inductive Outcome where
  | success (perTarget : List (TargetId × TargetResult)) (logs : List String)
      (stderr : String) : Outcome
  | protocolError (v : ProtocolViolation) (stderr : String) : Outcome
  | executionError (e : ExecutionFailure) : Outcome

/-- First recorded materialization report for an asset key, if any. -/
def findMaterialization (st : ReducerState) (key : List String) :
    Option MaterializationReport :=
  st.materializations.find? (fun r => decide (r.assetKey = key))

/-- First recorded check report for a (name, asset) pair, if any. -/
def findCheck (st : ReducerState) (name : String) (key : List String) :
    Option CheckReport :=
  st.checks.find? (fun c => decide (c.checkName = name ∧ c.assetKey = key))

/-- Modelled from the spec: the Result Builder's per-target policy — reports
are associated with targets strictly by explicit identity; a declared target
with no matching report at stream end becomes `missing` (spec §4.4, §4.5). -/
def buildTarget (st : ReducerState) (t : TargetId) : TargetResult :=
  match t with
  | .asset key =>
    match findMaterialization st key with
    | some r => .materialized r
    | none => .missing (.asset key)
  | .check name key =>
    match findCheck st name key with
    | some c => .checked c
    | none => .missing (.check name key)

/-- Modelled from the spec: ExecutionContext — "run identifier (opaque
string, unique per invocation), target identity, a mapping of arbitrary
configuration key → scalar/string value, and an extensibility bag of
provenance fields" (spec §3). -/
structure ExecutionContext where
  runId : String
  target : TargetId
  config : List (String × String)
  extras : List (String × String)
deriving Repr, DecidableEq

/-- JSON form of a target identity, used by the Context Encoder. -/
def targetToJson : TargetId → Json
  | .asset key => .obj [("type", .str "asset"), ("asset_key", .arr (key.map .str))]
  | .check name key =>
    .obj [("type", .str "check"), ("check_name", .str name),
          ("asset_key", .arr (key.map .str))]

/-- Inverse of `targetToJson`. -/
def jsonToTarget (j : Json) : Option TargetId := do
  let tag ← getField j "type" >>= asStr
  match tag with
  | "asset" => (getField j "asset_key" >>= asStrList).map .asset
  | "check" => do
    let name ← getField j "check_name" >>= asStr
    let key ← getField j "asset_key" >>= asStrList
    pure (.check name key)
  | _ => none

/-- JSON object formed from a string-to-string mapping. -/
def pairsToJson (ps : List (String × String)) : Json :=
  .obj (ps.map (fun p => (p.1, .str p.2)))

/-- Inverse of `pairsToJson`. -/
def jsonToPairs : Json → Option (List (String × String))
  | .obj fields =>
    mapOption (fun p => (asStr p.2).map (fun s => (p.1, s))) fields
  | _ => none

/-- Modelled from the spec: the Context Encoder's JSON fragment of the
ExecutionContext (spec §4.1, §6: "value = a string-encoded (e.g., JSON)
fragment of the ExecutionContext"). -/
def ctxToJson (ctx : ExecutionContext) : Json :=
  .obj [("run_id", .str ctx.runId),
        ("target", targetToJson ctx.target),
        ("config", pairsToJson ctx.config),
        ("extras", pairsToJson ctx.extras)]

/-- Modelled from the spec: the child-side decoding of the context fragment,
"using only string/JSON parsing" (spec §4.1). -/
def jsonToCtx (j : Json) : Option ExecutionContext := do
  let runId ← getField j "run_id" >>= asStr
  let target ← getField j "target" >>= jsonToTarget
  let config ← getField j "config" >>= jsonToPairs
  let extras ← getField j "extras" >>= jsonToPairs
  pure { runId := runId, target := target, config := config, extras := extras }

/-- Name of the context-bearing environment variable. -/
def contextEnvVar : String := "DAGSTER_PIPES_CONTEXT"

/-- A context transport payload: either environment-variable assignments
(`PipesEnvContextInjector`) or a context file handed to the child (the
default injector's temp-file transport) (spec §4.1, §6). -/
inductive Transport where
  | env (vars : List (String × Json)) : Transport
  | file (contents : Json) : Transport

/-- Modelled from the spec: a context injector — the pure encode half and the
child-side decode half of one context transport (spec §4.1). -/
structure ContextInjector where
  encode : ExecutionContext → Transport
  decode : Transport → Option ExecutionContext

/-- Modelled from the spec: `PipesEnvContextInjector` — the context is
serialized into encoded environment variables (spec §2, §6). -/
def envContextInjector : ContextInjector where
  encode ctx := .env [(contextEnvVar, ctxToJson ctx)]
  decode t :=
    match t with
    | .env vars => vars.lookup contextEnvVar >>= jsonToCtx
    | .file _ => none

/-- Modelled from the spec: the default injector of `PipesSubprocessClient` —
the context is written to a file whose contents the child parses. -/
def defaultContextInjector : ContextInjector where
  encode ctx := .file (ctxToJson ctx)
  decode t :=
    match t with
    | .env _ => none
    | .file contents => jsonToCtx contents

/-- One invocation as the Runner observes it: the declared targets, the
child's stdout lines, how the child terminated, and its captured stderr. -/
structure Invocation where
  declared : List TargetId
  stdoutLines : List String
  exit : ProcessExit
  stderr : String

/-- Modelled from the spec: the Runner plus Result Builder pipeline
(spec §2, §4.2, §4.5): the stdout lines are read and reduced in order; a
protocol violation is fatal for the whole invocation regardless of exit
code; otherwise a nonzero exit (or timeout, or spawn failure) overrides a
would-be success into an ExecutionError carrying stderr; otherwise each
declared target gets its per-target result. -/
def runInvocation (inv : Invocation) : Outcome :=
  match ingestLines inv.declared .init inv.stdoutLines with
  | .error v => .protocolError v inv.stderr
  | .ok st =>
    match inv.exit with
    | .exited 0 =>
      .success (inv.declared.map (fun t => (t, buildTarget st t))) st.logs
        inv.stderr
    | .exited code => .executionError (.nonZeroExit code inv.stderr)
    | .timedOut => .executionError .timedOut
    | .spawnFailed => .executionError .spawnFailed

/-- What the child process does, as a black box (spec §1): a function from
the execution context it decodes to the stdout lines it emits, its exit, and
its stderr text. -/
structure ChildBehavior where
  stdoutLines : ExecutionContext → List String
  exit : ExecutionContext → ProcessExit
  stderr : ExecutionContext → String

/-- Modelled from the spec: launching a child through a client configured
with a given context injector — the context is encoded, attached, decoded by
the child, and the child's observed behavior is run through the pipeline.  A
context the child cannot decode aborts the launch (`spawnFailed`). -/
def runWithInjector (inj : ContextInjector) (child : ChildBehavior)
    (ctx : ExecutionContext) (declared : List TargetId) : Outcome :=
  match inj.decode (inj.encode ctx) with
  | none => .executionError .spawnFailed
  | some c =>
    runInvocation
      { declared := declared, stdoutLines := child.stdoutLines c,
        exit := child.exit c, stderr := child.stderr c }

/-- Constructor test on Outcome: is it a success with per-target results? -/
def Outcome.isSuccess : Outcome → Bool
  | .success _ _ _ => true
  | _ => false

/-- A target with zero matching reports in the final reducer state. -/
def noReportFor (st : ReducerState) : TargetId → Bool
  | .asset key => (findMaterialization st key).isNone
  | .check name key => (findCheck st name key).isNone

/-- Every report recorded in the state references a declared target. -/
def declaredInvariant (d : List TargetId) (st : ReducerState) : Prop :=
  (∀ r ∈ st.materializations, TargetId.asset r.assetKey ∈ d) ∧
  (∀ c ∈ st.checks, TargetId.check c.checkName c.assetKey ∈ d)

/-- The declared target of the `materialize_subprocess` asset invocation
(`test_dagster_pipes.py`, `assets.py`). -/
def materializeTarget : TargetId := .asset ["materialize_subprocess"]

/-- The declared target of the `check_subprocess` asset-check invocation
(`test_dagster_pipes.py`, `assets.py`). -/
def checkTarget : TargetId := .check "check_subprocess" ["materialize_subprocess"]

/-- Modelled from the spec: the one marker-framed report line emitted by the
`materialize/main.go` child (not under src/) — a
`report-asset-materialization` with DataVersion "1.0" and metadata
foo ↦ text "bar" (spec §8 scenario). -/
def matReportLine : String :=
  messageMarker ++
    "\x7b\"kind\":\"report-asset-materialization\",\"asset_key\":[\"materialize_subprocess\"],\"data_version\":\"1.0\",\"metadata\":\x7b\"foo\":\x7b\"type\":\"text\",\"raw_value\":\"bar\"\x7d\x7d\x7d"

/-- Modelled from the spec: the one marker-framed report line emitted by the
`check/main.go` child (not under src/) — a `report-asset-check` with
passed=false, severity=ERROR and metadata foo ↦ text "bar" (spec §8
scenario). -/
def checkReportLine : String :=
  messageMarker ++
    "\x7b\"kind\":\"report-asset-check\",\"check_name\":\"check_subprocess\",\"asset_key\":[\"materialize_subprocess\"],\"passed\":false,\"severity\":\"ERROR\",\"metadata\":\x7b\"foo\":\x7b\"type\":\"text\",\"raw_value\":\"bar\"\x7d\x7d\x7d"

/-- The clean-termination marker line. -/
def closedLine : String := messageMarker ++ "\x7b\"kind\":\"closed\"\x7d"

/-- A marker-carrying line whose payload is not valid JSON. -/
def malformedLine : String := messageMarker ++ "\x7b"

/-- The invocation of the `materialize_subprocess` scenario: one declared
asset target, the child's report then `closed`, exit code 0, empty stderr. -/
def materializeInvocation : Invocation :=
  { declared := [materializeTarget],
    stdoutLines := [matReportLine, closedLine],
    exit := .exited 0, stderr := "" }

/-- The invocation of the `check_subprocess` scenario: one declared check
target, the child's failing-check report then `closed`, exit code 0. -/
def checkInvocation : Invocation :=
  { declared := [checkTarget],
    stdoutLines := [checkReportLine, closedLine],
    exit := .exited 0, stderr := "" }

/-- A stream that contains two materialization reports for the same target
but has a malformed marker line before them. -/
def dupAfterMalformedInvocation : Invocation :=
  { declared := [materializeTarget],
    stdoutLines := [malformedLine, matReportLine, matReportLine],
    exit := .exited 0, stderr := "" }

/-- A stream that contains two materialization reports for the same target
with a `closed` message between them. -/
def dupAfterClosedInvocation : Invocation :=
  { declared := [materializeTarget],
    stdoutLines := [matReportLine, closedLine, matReportLine],
    exit := .exited 0, stderr := "" }

/-- A duplicate-report stream whose child also exits with code 1. -/
def dupNonzeroExitInvocation : Invocation :=
  { declared := [materializeTarget],
    stdoutLines := [matReportLine, matReportLine],
    exit := .exited 1, stderr := "boom" }

/-- A stream with a duplicate report before a malformed marker line. -/
def malformedAfterDupInvocation : Invocation :=
  { declared := [materializeTarget],
    stdoutLines := [matReportLine, matReportLine, malformedLine],
    exit := .exited 0, stderr := "" }

/-- Two declared targets, a duplicate-report violation on the first, no
report at all for the second, exit code 0. -/
def missingWithViolationInvocation : Invocation :=
  { declared := [materializeTarget, .asset ["other"]],
    stdoutLines := [matReportLine, matReportLine],
    exit := .exited 0, stderr := "" }

/-- The reducer state after ingesting exactly the one materialization report
of the `materialize_subprocess` scenario. -/
def afterMatReportState : ReducerState :=
  { materializations :=
      [{ assetKey := ["materialize_subprocess"], dataVersion := some "1.0",
         metadata := [("foo", .text "bar")] }],
    checks := [], customMessages := [], logs := [], closed := false }

theorem ingestLines_error (d : List TargetId) (ls : List String)
    (v : ProtocolViolation) :
    ls.foldl (fun (acc : Except ProtocolViolation ReducerState) l =>
      acc.bind (fun s => ingestStep d s l)) (.error v) = .error v := by
  induction ls with
  | nil => rfl
  | cons l ls ih => simpa [Except.bind] using ih

theorem reduceMsgs_error (d : List TargetId) (ms : List ProtocolMessage)
    (v : ProtocolViolation) :
    ms.foldl (fun (acc : Except ProtocolViolation ReducerState) m =>
      acc.bind (fun s => reduceMsg d s m)) (.error v) = .error v := by
  induction ms with
  | nil => rfl
  | cons m ms ih => simpa [Except.bind] using ih

theorem ingestLines_cons (d : List TargetId) (st : ReducerState) (l : String)
    (ls : List String) :
    ingestLines d st (l :: ls) =
      match ingestStep d st l with
      | .error v => .error v
      | .ok st' => ingestLines d st' ls := by
  simp only [ingestLines, List.foldl_cons]
  cases h : ingestStep d st l with
  | error v =>
    simpa [Except.bind, h] using ingestLines_error d ls v
  | ok st' => simp [Except.bind, h]

theorem reduceMsgs_cons (d : List TargetId) (st : ReducerState)
    (m : ProtocolMessage) (ms : List ProtocolMessage) :
    reduceMsgs d st (m :: ms) =
      match reduceMsg d st m with
      | .error v => .error v
      | .ok st' => reduceMsgs d st' ms := by
  simp only [reduceMsgs, List.foldl_cons]
  cases h : reduceMsg d st m with
  | error v =>
    simpa [Except.bind, h] using reduceMsgs_error d ms v
  | ok st' => simp [Except.bind, h]

theorem ingestLines_append (d : List TargetId) (xs ys : List String)
    (st : ReducerState) :
    ingestLines d st (xs ++ ys) =
      match ingestLines d st xs with
      | .error v => .error v
      | .ok st' => ingestLines d st' ys := by
  induction xs generalizing st with
  | nil => rfl
  | cons l ls ih =>
    rw [List.cons_append, ingestLines_cons, ingestLines_cons]
    cases ingestStep d st l with
    | error v => rfl
    | ok st' => exact ih st'

theorem reduceMsgs_append (d : List TargetId) (xs ys : List ProtocolMessage)
    (st : ReducerState) :
    reduceMsgs d st (xs ++ ys) =
      match reduceMsgs d st xs with
      | .error v => .error v
      | .ok st' => reduceMsgs d st' ys := by
  induction xs generalizing st with
  | nil => rfl
  | cons m ms ih =>
    rw [List.cons_append, reduceMsgs_cons, reduceMsgs_cons]
    cases reduceMsg d st m with
    | error v => rfl
    | ok st' => exact ih st'

theorem reduceMsg_preserves_declared (d : List TargetId) (st : ReducerState)
    (m : ProtocolMessage) (st' : ReducerState)
    (h : reduceMsg d st m = .ok st') (hinv : declaredInvariant d st) :
    declaredInvariant d st' := by
  cases m with
  | log s =>
    simp only [reduceMsg] at h
    by_cases hcl : st.closed = true
    · rw [if_pos hcl] at h; cases h
    · rw [if_neg hcl] at h
      simp only [Except.ok.injEq] at h
      subst h
      exact hinv
  | reportAssetMaterialization key dv md =>
    simp only [reduceMsg] at h
    by_cases hcl : st.closed = true
    · rw [if_pos hcl] at h; cases h
    · rw [if_neg hcl] at h
      by_cases hmem : TargetId.asset key ∈ d
      · rw [if_pos hmem] at h
        by_cases hdup : hasMaterialization st key = true
        · rw [if_pos hdup] at h; cases h
        · rw [if_neg hdup] at h
          simp only [Except.ok.injEq] at h
          subst h
          refine ⟨?_, hinv.2⟩
          intro r hr
          rcases List.mem_append.mp hr with hr | hr
          · exact hinv.1 r hr
          · simp only [List.mem_singleton] at hr
            subst hr
            exact hmem
      · rw [if_neg hmem] at h; cases h
  | reportAssetCheck name key passed sev md =>
    simp only [reduceMsg] at h
    by_cases hcl : st.closed = true
    · rw [if_pos hcl] at h; cases h
    · rw [if_neg hcl] at h
      by_cases hmem : TargetId.check name key ∈ d
      · rw [if_pos hmem] at h
        by_cases hdup : hasCheck st name key = true
        · rw [if_pos hdup] at h; cases h
        · rw [if_neg hdup] at h
          simp only [Except.ok.injEq] at h
          subst h
          refine ⟨hinv.1, ?_⟩
          intro c hc
          rcases List.mem_append.mp hc with hc | hc
          · exact hinv.2 c hc
          · simp only [List.mem_singleton] at hc
            subst hc
            exact hmem
      · rw [if_neg hmem] at h; cases h
  | reportCustomMessage p =>
    simp only [reduceMsg] at h
    by_cases hcl : st.closed = true
    · rw [if_pos hcl] at h; cases h
    · rw [if_neg hcl] at h
      simp only [Except.ok.injEq] at h
      subst h
      exact hinv
  | closed =>
    simp only [reduceMsg] at h
    by_cases hcl : st.closed = true
    · rw [if_pos hcl] at h; cases h
    · rw [if_neg hcl] at h
      simp only [Except.ok.injEq] at h
      subst h
      exact hinv

theorem ingestStep_preserves_declared (d : List TargetId) (st : ReducerState)
    (l : String) (st' : ReducerState)
    (h : ingestStep d st l = .ok st') (hinv : declaredInvariant d st) :
    declaredInvariant d st' := by
  unfold ingestStep at h
  cases hr : readLine l with
  | error v => rw [hr] at h; cases h
  | ok m =>
    rw [hr] at h
    exact reduceMsg_preserves_declared d st m st' h hinv

theorem ingestLines_preserves_declared (d : List TargetId)
    (lines : List String) (st st' : ReducerState)
    (h : ingestLines d st lines = .ok st') (hinv : declaredInvariant d st) :
    declaredInvariant d st' := by
  induction lines generalizing st with
  | nil =>
    simp only [ingestLines, List.foldl_nil, Except.ok.injEq] at h
    subst h
    exact hinv
  | cons l ls ih =>
    rw [ingestLines_cons] at h
    cases hs : ingestStep d st l with
    | error v => rw [hs] at h; cases h
    | ok st₁ =>
      rw [hs] at h
      exact ih st₁ h (ingestStep_preserves_declared d st l st₁ hs hinv)

theorem ingestLines_declared_of_init (d : List TargetId)
    (lines : List String) (st : ReducerState)
    (h : ingestLines d .init lines = .ok st) : declaredInvariant d st :=
  ingestLines_preserves_declared d lines .init st h
    ⟨fun r hr => absurd hr (List.not_mem_nil r),
     fun c hc => absurd hc (List.not_mem_nil c)⟩

/-- Claim C1: for the invocation declaring the single target
`["materialize_subprocess"]` whose child emits exactly one
report-asset-materialization message carrying DataVersion "1.0" and metadata
foo ↦ text "bar", then `closed`, and exits 0, the run operation returns a
success Outcome whose data version is "1.0" and whose metadata entry "foo"
is the text value "bar". -/
theorem materialize_scenario_success :
    runInvocation materializeInvocation =
      .success [(materializeTarget,
        .materialized
          { assetKey := ["materialize_subprocess"], dataVersion := some "1.0",
            metadata := [("foo", .text "bar")] })]
        [] "" := by
  rfl

/-- Claim C2: for the invocation declaring the check "check_subprocess" on
asset `["materialize_subprocess"]` whose child emits one report-asset-check
message with passed=false, severity=ERROR and metadata foo ↦ text "bar",
then `closed`, and exits 0, the run operation returns a success Outcome for
the check with passed=false, severity=ERROR and metadata "foo" the text
value "bar" — a failing check is reported as a success Outcome, never as a
failure. -/
theorem check_scenario_success :
    runInvocation checkInvocation =
      .success [(checkTarget,
        .checked
          { checkName := "check_subprocess",
            assetKey := ["materialize_subprocess"], passed := false,
            severity := .ERROR, metadata := [("foo", .text "bar")] })]
        [] "" := by
  rfl

/-- Claim C3 counterexample: a stream that does contain two
report-asset-materialization messages for the same target (and exit code 0)
but whose Outcome is not ProtocolError(DuplicateReport): an earlier
malformed marker line yields ProtocolError(MalformedMessage), and a `closed`
between the two reports yields ProtocolError(MessageAfterClose). -/
theorem duplicate_report_claim_counterexample :
    runInvocation dupAfterMalformedInvocation =
        .protocolError .MalformedMessage "" ∧
      runInvocation dupAfterMalformedInvocation ≠
        .protocolError .DuplicateReport "" ∧
      runInvocation dupAfterClosedInvocation =
        .protocolError .MessageAfterClose "" ∧
      runInvocation dupAfterClosedInvocation ≠
        .protocolError .DuplicateReport "" := by
  refine ⟨rfl, fun h => ?_, rfl, fun h => ?_⟩
  · rw [show runInvocation dupAfterMalformedInvocation =
        Outcome.protocolError .MalformedMessage "" from rfl] at h
    injection h with h1 h2
    cases h1
  · rw [show runInvocation dupAfterClosedInvocation =
        Outcome.protocolError .MessageAfterClose "" from rfl] at h
    injection h with h1 h2
    cases h1

/-- Claim C3 (amended): if the stream up to the second report reduces
without violation and has not yet been closed, then a second
report-asset-materialization for a target that already has a recorded
report makes the Outcome ProtocolError(DuplicateReport), for every exit
code — the second report is rejected, not recorded, merged or ignored. -/
theorem duplicate_report_rejected (d : List TargetId) (pre post : List String)
    (l : String) (key : List String) (dv : Option String)
    (md : List (String × MetadataValue)) (st : ReducerState)
    (ex : ProcessExit) (err : String)
    (hok : ingestLines d .init pre = .ok st)
    (hhas : hasMaterialization st key = true)
    (hcl : st.closed = false)
    (hline : readLine l = .ok (.reportAssetMaterialization key dv md)) :
    runInvocation
        { declared := d, stdoutLines := pre ++ l :: post, exit := ex,
          stderr := err } =
      .protocolError .DuplicateReport err := by
  have hmem : TargetId.asset key ∈ d := by
    rcases List.any_eq_true.mp hhas with ⟨r, hr, hkey⟩
    have hd := (ingestLines_declared_of_init d pre st hok).1 r hr
    rwa [of_decide_eq_true hkey] at hd
  have hstep : ingestStep d st l = .error .DuplicateReport := by
    unfold ingestStep
    rw [hline]
    simp [reduceMsg, hcl, hmem, hhas]
  have hstream : ingestLines d .init (pre ++ l :: post) =
      .error .DuplicateReport := by
    rw [ingestLines_append, hok]
    show ingestLines d st (l :: post) = .error .DuplicateReport
    rw [ingestLines_cons, hstep]
  simp [runInvocation, hstream]

/-- Claim C3 (amended) witness: the duplicate second report arrives after
one recorded report, with exit code 3; the Outcome is
ProtocolError(DuplicateReport). -/
theorem duplicate_report_rejected_witness :
    runInvocation
        { declared := [materializeTarget],
          stdoutLines := [matReportLine] ++ matReportLine :: [],
          exit := .exited 3, stderr := "" } =
      .protocolError .DuplicateReport "" :=
  duplicate_report_rejected [materializeTarget] [matReportLine] []
    matReportLine ["materialize_subprocess"] (some "1.0")
    [("foo", .text "bar")] afterMatReportState (.exited 3) "" rfl rfl rfl rfl

/-- Claim C4 counterexample: an invocation whose child exits with the
nonzero code 1 but whose Outcome is not ExecutionError(NonZeroExit): the
stream held a duplicate report, and the protocol violation takes precedence
over the exit code ("regardless of exit code", spec §8). -/
theorem nonzero_exit_claim_counterexample :
    runInvocation dupNonzeroExitInvocation =
        .protocolError .DuplicateReport "boom" ∧
      runInvocation dupNonzeroExitInvocation ≠
        .executionError (.nonZeroExit 1 "boom") := by
  refine ⟨rfl, fun h => ?_⟩
  rw [show runInvocation dupNonzeroExitInvocation =
      Outcome.protocolError .DuplicateReport "boom" from rfl] at h
  cases h

/-- Claim C4 (amended): for every invocation whose stream reduces without
protocol violation — in particular whenever every declared target has a
complete, valid report — a nonzero exit code makes the Outcome
ExecutionError(NonZeroExit) carrying the captured stderr text; the nonzero
exit overrides the otherwise-successful in-stream result. -/
theorem nonzero_exit_overrides (d : List TargetId) (lines : List String)
    (st : ReducerState) (code : Nat) (err : String)
    (hok : ingestLines d .init lines = .ok st)
    (hcode : code ≠ 0) :
    runInvocation
        { declared := d, stdoutLines := lines, exit := .exited code,
          stderr := err } =
      .executionError (.nonZeroExit code err) := by
  obtain ⟨n, rfl⟩ : ∃ n, code = n + 1 :=
    ⟨code - 1, (Nat.succ_pred_eq_of_pos (Nat.pos_of_ne_zero hcode)).symm⟩
  simp [runInvocation, hok]

/-- Claim C4 (amended) witness: exit code 7 with a perfectly valid
single-target report stream still yields ExecutionError(NonZeroExit)
carrying the stderr text. -/
theorem nonzero_exit_overrides_witness :
    runInvocation
        { declared := [materializeTarget],
          stdoutLines := [matReportLine, closedLine], exit := .exited 7,
          stderr := "go exited" } =
      .executionError (.nonZeroExit 7 "go exited") :=
  nonzero_exit_overrides [materializeTarget] [matReportLine, closedLine]
    { afterMatReportState with closed := true } 7 "go exited" rfl
    (by decide)

/-- Claim C5 counterexample: a stream that does contain a marker line with
an undecodable payload, yet whose Outcome is not
ProtocolError(MalformedMessage): an earlier duplicate report wins, so the
Outcome is ProtocolError(DuplicateReport). -/
theorem malformed_line_claim_counterexample :
    runInvocation malformedAfterDupInvocation =
        .protocolError .DuplicateReport "" ∧
      runInvocation malformedAfterDupInvocation ≠
        .protocolError .MalformedMessage "" := by
  refine ⟨rfl, fun h => ?_⟩
  rw [show runInvocation malformedAfterDupInvocation =
      Outcome.protocolError .DuplicateReport "" from rfl] at h
  injection h with h1 h2
  cases h1

/-- Claim C5 (amended): a stdout line that begins with the protocol marker
but whose payload is not valid JSON is decoded by the Reader as the hard
violation MalformedMessage — never downgraded to an ordinary log message —
and, provided the stream before it reduced without violation, it makes the
invocation's Outcome ProtocolError(MalformedMessage) for every exit code,
even when all declared targets had valid reports earlier in the stream. -/
theorem malformed_line_fatal (d : List TargetId) (pre post : List String)
    (line payload : String) (st : ReducerState) (ex : ProcessExit)
    (err : String)
    (hok : ingestLines d .init pre = .ok st)
    (hmark : stripMarker line = some payload)
    (hfail : parseJson payload = none) :
    readLine line = .error .MalformedMessage ∧
    runInvocation
        { declared := d, stdoutLines := pre ++ line :: post, exit := ex,
          stderr := err } =
      .protocolError .MalformedMessage err := by
  have hrl : readLine line = .error .MalformedMessage := by
    unfold readLine
    rw [hmark]
    show (match parseJson payload with
      | some j =>
        match jsonToMessage j with
        | some m => Except.ok m
        | none => Except.error ProtocolViolation.MalformedMessage
      | none => Except.error .MalformedMessage) =
      Except.error .MalformedMessage
    rw [hfail]
  refine ⟨hrl, ?_⟩
  have hstep : ingestStep d st line = .error .MalformedMessage := by
    unfold ingestStep
    rw [hrl]
  have hstream : ingestLines d .init (pre ++ line :: post) =
      .error .MalformedMessage := by
    rw [ingestLines_append, hok]
    show ingestLines d st (line :: post) = .error .MalformedMessage
    rw [ingestLines_cons, hstep]
  simp [runInvocation, hstream]

/-- Claim C5 (amended) witness: after a complete valid report for the
declared target, a marker line with invalid JSON payload makes the Outcome
ProtocolError(MalformedMessage) even with exit code 0. -/
theorem malformed_line_fatal_witness :
    readLine malformedLine = .error .MalformedMessage ∧
    runInvocation
        { declared := [materializeTarget],
          stdoutLines := [matReportLine] ++ malformedLine :: [],
          exit := .exited 0, stderr := "" } =
      .protocolError .MalformedMessage "" :=
  malformed_line_fatal [materializeTarget] [matReportLine] [] malformedLine
    "\x7b" afterMatReportState (.exited 0) "" rfl rfl rfl

theorem asStrList_roundtrip (xs : List String) :
    asStrList (.arr (xs.map .str)) = some xs := by
  simp only [asStrList]
  induction xs with
  | nil => rfl
  | cons x xs ih => simp [mapOption, ih, asStr]

theorem jsonToTarget_roundtrip (t : TargetId) :
    jsonToTarget (targetToJson t) = some t := by
  cases t with
  | asset key =>
    simp [jsonToTarget, targetToJson, getField, List.lookup,
      asStr, asStrList_roundtrip]
  | check name key =>
    simp [jsonToTarget, targetToJson, getField, List.lookup,
      asStr, asStrList_roundtrip]

theorem jsonToPairs_roundtrip (ps : List (String × String)) :
    jsonToPairs (pairsToJson ps) = some ps := by
  simp only [jsonToPairs, pairsToJson]
  induction ps with
  | nil => rfl
  | cons p ps ih =>
    simp only [mapOption]
    rw [ih]
    rfl

theorem ctx_roundtrip (ctx : ExecutionContext) :
    jsonToCtx (ctxToJson ctx) = some ctx := by
  cases ctx with
  | mk runId target config extras =>
    simp [jsonToCtx, ctxToJson, getField, List.lookup, asStr,
      jsonToTarget_roundtrip, jsonToPairs_roundtrip]

/-- Claim C6: for every ExecutionContext, decoding the Context Encoder's
environment-variable payload recovers the context exactly —
decode(encode(ctx)) = some ctx, losslessly for the run identifier, target
identity, configuration mapping and extensibility bag. -/
theorem context_roundtrip_env (ctx : ExecutionContext) :
    envContextInjector.decode (envContextInjector.encode ctx) = some ctx := by
  simp [envContextInjector, List.lookup, ctx_roundtrip]

/-- Claim C10: running a child through a client configured with
PipesEnvContextInjector (context via environment variables) and through a
default-configured client (context via the context file) yields the same
Outcome for every child behavior, context and declared-target set — the
choice of context-injection transport does not affect the result. -/
theorem injector_choice_irrelevant (child : ChildBehavior)
    (ctx : ExecutionContext) (d : List TargetId) :
    runWithInjector envContextInjector child ctx d =
      runWithInjector defaultContextInjector child ctx d := by
  have henv : envContextInjector.decode (envContextInjector.encode ctx) =
      some ctx := by
    simp [envContextInjector, List.lookup, ctx_roundtrip]
  have hdef :
      defaultContextInjector.decode (defaultContextInjector.encode ctx) =
      some ctx := by
    simp [defaultContextInjector, ctx_roundtrip]
  rw [runWithInjector, runWithInjector, henv, hdef]

theorem buildTarget_missing (st : ReducerState) (T : TargetId)
    (hnone : noReportFor st T = true) : buildTarget st T = .missing T := by
  cases T with
  | asset key =>
    simp only [noReportFor, Option.isNone_iff_eq_none] at hnone
    simp [buildTarget, hnone]
  | check name key =>
    simp only [noReportFor, Option.isNone_iff_eq_none] at hnone
    simp [buildTarget, hnone]

/-- Claim C7 counterexample: the child exits 0 and the second declared
target received zero matching reports, yet the Outcome is not
MissingReport for that target — a duplicate-report violation on the first
target makes the whole invocation a ProtocolError with no per-target
results at all. -/
theorem missing_report_claim_counterexample :
    runInvocation missingWithViolationInvocation =
        .protocolError .DuplicateReport "" ∧
      (runInvocation missingWithViolationInvocation).isSuccess = false :=
  ⟨rfl, rfl⟩

/-- Claim C7 (amended): when the child exits 0 and the stream reduces
without protocol violation, every declared target with zero matching
reports gets the per-target result `missing` (MissingReport) inside a
success Outcome, and the other declared targets' results are still computed
from their own reports — the missing report does not by itself fail them. -/
theorem missing_report_per_target (d : List TargetId) (lines : List String)
    (err : String) (st : ReducerState) (T : TargetId)
    (hok : ingestLines d .init lines = .ok st)
    (hT : T ∈ d)
    (hnone : noReportFor st T = true) :
    runInvocation
        { declared := d, stdoutLines := lines, exit := .exited 0,
          stderr := err } =
      .success (d.map (fun U => (U, buildTarget st U))) st.logs err ∧
    (T, TargetResult.missing T) ∈ d.map (fun U => (U, buildTarget st U)) := by
  refine ⟨?_, ?_⟩
  · simp [runInvocation, hok]
  · exact List.mem_map.mpr
      ⟨T, hT, by simp only [buildTarget_missing st T hnone]⟩

/-- Claim C7 (amended) witness: one declared target, empty stream, exit 0 —
the Outcome is a success carrying MissingReport for that target. -/
theorem missing_report_per_target_witness :
    runInvocation
        { declared := [materializeTarget], stdoutLines := [],
          exit := .exited 0, stderr := "" } =
      .success
        ([materializeTarget].map
          (fun U => (U, buildTarget ReducerState.init U)))
        ReducerState.init.logs "" ∧
    (materializeTarget, TargetResult.missing materializeTarget) ∈
      [materializeTarget].map (fun U => (U, buildTarget ReducerState.init U)) :=
  missing_report_per_target [materializeTarget] [] "" .init
    materializeTarget rfl (by simp) rfl

theorem reduceMsg_closed_sets (d : List TargetId) (st st' : ReducerState)
    (h : reduceMsg d st .closed = .ok st') : st'.closed = true := by
  by_cases hcl : st.closed = true
  · simp [reduceMsg, hcl] at h
  · simp only [reduceMsg] at h
    rw [if_neg hcl] at h
    simp only [Except.ok.injEq] at h
    subst h
    rfl

theorem reduceMsgs_closed_final (d : List TargetId)
    (pre : List ProtocolMessage) (st : ReducerState)
    (h : reduceMsgs d .init (pre ++ [.closed]) = .ok st) :
    st.closed = true := by
  rw [reduceMsgs_append] at h
  cases hpre : reduceMsgs d .init pre with
  | error v => rw [hpre] at h; simp at h
  | ok st₁ =>
    rw [hpre] at h
    simp only at h
    rw [reduceMsgs_cons] at h
    cases hc : reduceMsg d st₁ .closed with
    | error v => rw [hc] at h; simp at h
    | ok st₂ =>
      rw [hc] at h
      simp only [reduceMsgs, List.foldl_nil, Except.ok.injEq] at h
      subst h
      exact reduceMsg_closed_sets d st₁ st₂ hc

/-- Claim C8: in every message stream reduced by the Reducer, no protocol
message is ever accepted after a `closed` message — once the stream up to
and including the first `closed` has reduced cleanly, any subsequent
message makes the stream non-conformant with the MessageAfterClose
protocol violation. -/
theorem no_message_accepted_after_closed (d : List TargetId)
    (pre : List ProtocolMessage) (m : ProtocolMessage)
    (post : List ProtocolMessage) (st : ReducerState)
    (hok : reduceMsgs d .init (pre ++ [.closed]) = .ok st) :
    reduceMsgs d .init (pre ++ .closed :: m :: post) =
      .error .MessageAfterClose := by
  have hclosed : st.closed = true := reduceMsgs_closed_final d pre st hok
  have hassoc : pre ++ ProtocolMessage.closed :: m :: post =
      (pre ++ [ProtocolMessage.closed]) ++ (m :: post) := by simp
  rw [hassoc, reduceMsgs_append, hok]
  show reduceMsgs d st (m :: post) = .error .MessageAfterClose
  rw [reduceMsgs_cons]
  have hm : reduceMsg d st m = .error .MessageAfterClose := by
    unfold reduceMsg
    rw [if_pos hclosed]
  rw [hm]

/-- Claim C8 witness: a second message (here another `closed`) after a clean
`closed` is rejected as MessageAfterClose. -/
theorem no_message_accepted_after_closed_witness :
    reduceMsgs [] .init ([] ++ ProtocolMessage.closed ::
        ProtocolMessage.closed :: []) =
      .error .MessageAfterClose :=
  no_message_accepted_after_closed [] [] .closed []
    { materializations := [], checks := [], customMessages := [], logs := [],
      closed := true } rfl

/-- Claim C9: every materialization or check report recorded by the Reducer
references a target identity declared to the Runner before launch, and a
report for an undeclared target is rejected with the UndeclaredTarget
protocol violation rather than silently dropped — so any success Outcome
only carries declared identities. -/
theorem reports_reference_declared (d : List TargetId) (lines : List String)
    (st : ReducerState)
    (hok : ingestLines d .init lines = .ok st) :
    (∀ r ∈ st.materializations, TargetId.asset r.assetKey ∈ d) ∧
    (∀ c ∈ st.checks, TargetId.check c.checkName c.assetKey ∈ d) ∧
    (∀ (st' : ReducerState) (key : List String) (dv : Option String)
        (md : List (String × MetadataValue)), st'.closed = false →
        TargetId.asset key ∉ d →
        reduceMsg d st' (.reportAssetMaterialization key dv md) =
          .error .UndeclaredTarget) ∧
    (∀ (st' : ReducerState) (name : String) (key : List String)
        (passed : Bool) (sev : AssetCheckSeverity)
        (md : List (String × MetadataValue)),
        st'.closed = false → TargetId.check name key ∉ d →
        reduceMsg d st' (.reportAssetCheck name key passed sev md) =
          .error .UndeclaredTarget) := by
  obtain ⟨h1, h2⟩ := ingestLines_declared_of_init d lines st hok
  refine ⟨h1, h2, ?_, ?_⟩
  · intro st' key dv md hcl hnd
    simp [reduceMsg, hcl, hnd]
  · intro st' name key passed sev md hcl hnd
    simp [reduceMsg, hcl, hnd]

/-- Claim C9 witness: instantiated at the materialize scenario — the
recorded report references the declared asset target, and undeclared
reports are rejected. -/
theorem reports_reference_declared_witness :
    (∀ r ∈ ({ afterMatReportState with closed := true } :
        ReducerState).materializations,
      TargetId.asset r.assetKey ∈ [materializeTarget]) ∧
    (∀ c ∈ ({ afterMatReportState with closed := true } :
        ReducerState).checks,
      TargetId.check c.checkName c.assetKey ∈ [materializeTarget]) ∧
    (∀ (st' : ReducerState) (key : List String) (dv : Option String)
        (md : List (String × MetadataValue)), st'.closed = false →
        TargetId.asset key ∉ [materializeTarget] →
        reduceMsg [materializeTarget] st'
            (.reportAssetMaterialization key dv md) =
          .error .UndeclaredTarget) ∧
    (∀ (st' : ReducerState) (name : String) (key : List String)
        (passed : Bool) (sev : AssetCheckSeverity)
        (md : List (String × MetadataValue)),
        st'.closed = false → TargetId.check name key ∉ [materializeTarget] →
        reduceMsg [materializeTarget] st'
            (.reportAssetCheck name key passed sev md) =
          .error .UndeclaredTarget) :=
  reports_reference_declared [materializeTarget] [matReportLine, closedLine]
    { afterMatReportState with closed := true } rfl

end Pipes
